import Mathlib

/-!
# tinyproxy `sock.c`: socket helpers

A shallow embedding of `src/sock.c` (`opensock`, `socket_nonblocking`,
`socket_blocking`, `safe_write`, `safe_read`, `readline`) and the properties
of these functions.

Modelling conventions.

* The operating system is a script: a list with the result of each system call
  in the order the calls are made.
* A buffer is a map from index to byte value together with the list of indices
  that were written, in the order of the writes.
* `size_t` and `ssize_t` are unbounded (`Nat`, `Int`): the counter `n` of
  `readline` never exceeds `maxlen`.
* Constants of the system headers (`EINTR`, `O_NONBLOCK`) are parameters.
-/

namespace Sock

/-! ## System call results -/

/-- Result of one `read(2)` / `write(2)` call: the value returned and the value
of `errno` after the call. -/
structure SysResult where
  len : Int
  errno : Nat
  deriving DecidableEq, Repr

/-- Result of one `read(fd, &c, 1)` call: the value returned, the value of
`errno` after the call and the byte left in `c` when the call returned 1. -/
structure ReadResult where
  rc : Int
  errno : Nat
  c : Nat
  deriving DecidableEq, Repr

/-- A successful one-byte read delivering byte `c`. -/
def ReadResult.data (c : Nat) : ReadResult := ⟨1, 0, c⟩

/-- A read reporting end-of-stream. -/
def ReadResult.eof : ReadResult := ⟨0, 0, 0⟩

/-- A failed read with the given `errno`. -/
def ReadResult.fail (errno : Nat) : ReadResult := ⟨-1, errno, 0⟩

/-! ## `safe_write` / `safe_read` -/

/-- The `do { len = write(fd, buffer, count); } while (len < 0 && errno == EINTR);`
loop of `safe_write` over the script of `write` results.  Returns the value
returned, the number of `write` calls made and the unused rest of the script;
`none` when the script ends while the loop is still retrying. -/
def safe_write (EINTR : Nat) : List SysResult → Option (Int × Nat × List SysResult)
  | [] => none
  | r :: rest =>
    if r.len < 0 ∧ r.errno = EINTR then
      match safe_write EINTR rest with
      | none => none
      | some (len, calls, rest') => some (len, calls + 1, rest')
    else some (r.len, 1, rest)

/-- The `do { len = read(fd, buffer, count); } while (len < 0 && errno == EINTR);`
loop of `safe_read` over the script of `read` results.  Returns the value
returned, the number of `read` calls made and the unused rest of the script;
`none` when the script ends while the loop is still retrying. -/
def safe_read (EINTR : Nat) : List SysResult → Option (Int × Nat × List SysResult)
  | [] => none
  | r :: rest =>
    if r.len < 0 ∧ r.errno = EINTR then
      match safe_read EINTR rest with
      | none => none
      | some (len, calls, rest') => some (len, calls + 1, rest')
    else some (r.len, 1, rest)

/-! ## `readline` -/

/-- The caller's buffer as seen through `ptr`: `cell i` is the byte at index `i`
of the buffer, `ptr` the offset of the moving pointer from the start of the
buffer, `writes` the indices written so far, oldest first. -/
structure Buffer where
  cell : Nat → Nat
  ptr : Nat
  writes : List Nat

/-- The statement `*ptr++ = c;`. -/
def Buffer.put (b : Buffer) (c : Nat) : Buffer :=
  { cell := Function.update b.cell b.ptr c
    ptr := b.ptr + 1
    writes := b.writes ++ [b.ptr] }

/-- The statement `*ptr = '\0';`. -/
def Buffer.terminate (b : Buffer) : Buffer :=
  { cell := Function.update b.cell b.ptr 0
    ptr := b.ptr
    writes := b.writes ++ [b.ptr] }

/-- What a call of `readline` leaves behind: the value returned, the buffer and
the part of the read script that was not used. -/
structure Outcome where
  ret : Int
  buf : Buffer
  rest : List ReadResult

/-- The code after the `for` loop: `*ptr = '\0'; return (ssize_t)n;`. -/
def finish (n : Nat) (b : Buffer) (rest : List ReadResult) : Outcome :=
  ⟨(n : Int), b.terminate, rest⟩

/-- The body of the `for` loop of `readline` from the label `again`, with the
increment `n++` and the test `n < maxlen` that follow a completed iteration.
A script that has run out reads as end-of-stream (`rc == 0`). -/
def again (EINTR maxlen : Nat) : List ReadResult → Nat → Buffer → Outcome
  | [], n, b =>
    if n = 1 then ⟨0, b, []⟩ else finish n b []
  | r :: rest, n, b =>
    if r.rc = 1 then
      let b1 := b.put r.c
      if r.c = 10 then finish n b1 rest
      else if n + 1 < maxlen then again EINTR maxlen rest (n + 1) b1
      else finish (n + 1) b1 rest
    else if r.rc = 0 then
      if n = 1 then ⟨0, b, rest⟩ else finish n b rest
    else
      if r.errno = EINTR then again EINTR maxlen rest n b
      else ⟨-1, b, rest⟩

/-- The function `readline(fd, ptr, maxlen)`: `init` is the content of the
buffer at the call, `script` the results of the successive
`read(fd, &c, 1)` calls on `fd`. -/
def readline (EINTR : Nat) (script : List ReadResult) (init : Nat → Nat) (maxlen : Nat) :
    Outcome :=
  if 1 < maxlen then again EINTR maxlen script 1 ⟨init, 0, []⟩
  else finish 1 ⟨init, 0, []⟩ script

/-- The data bytes a stretch of the read script delivers: the bytes of the
reads that returned 1, in order. -/
def dataBytes (script : List ReadResult) : List Nat :=
  (script.filter (fun r => r.rc = 1)).map (fun r => r.c)

/-- The first `k` bytes of a buffer. -/
def Buffer.content (b : Buffer) (k : Nat) : List Nat :=
  (List.range k).map b.cell

/-- The data bytes a call stored: the bytes below the final position of `ptr`. -/
def Outcome.stored (o : Outcome) : List Nat :=
  o.buf.content o.buf.ptr

/-- The part of the read script a call used up. -/
def Outcome.consumed (o : Outcome) (script : List ReadResult) : List ReadResult :=
  script.take (script.length - o.rest.length)

/-- Store the bytes `l` one after the other with `*ptr++ = c`. -/
def Buffer.putAll (b : Buffer) (l : List Nat) : Buffer :=
  l.foldl Buffer.put b

/-! ## `socket_nonblocking` / `socket_blocking` -/

/-- The call `fcntl(sock, F_GETFL, 0)` on a socket whose status flags are `fl`:
the flags when the call succeeds (`ok`), `-1` when it fails. -/
def fcntl_getfl (ok : Bool) (fl : Int) : Int :=
  if ok then fl else -1

/-- The call `fcntl(sock, F_SETFL, arg)` on a socket whose status flags are `fl`:
the value returned and the status flags after the call. -/
def fcntl_setfl (ok : Bool) (fl arg : Int) : Int × Int :=
  if ok then (0, arg) else (-1, fl)

/-- The function `socket_nonblocking(sock)`: `fl` is the status-flags word of
the socket, `getOk` and `setOk` say whether the two `fcntl` calls succeed.
Returns the value returned and the status flags afterwards. -/
def socket_nonblocking (O_NONBLOCK : Int) (getOk setOk : Bool) (fl : Int) : Int × Int :=
  let flags := fcntl_getfl getOk fl
  fcntl_setfl setOk fl (Int.lor flags O_NONBLOCK)

/-- The function `socket_blocking(sock)`, with the same conventions as
`socket_nonblocking`. -/
def socket_blocking (O_NONBLOCK : Int) (getOk setOk : Bool) (fl : Int) : Int × Int :=
  let flags := fcntl_getfl getOk fl
  fcntl_setfl setOk fl (Int.land flags (Int.lnot O_NONBLOCK))

/-! ## `opensock` -/

/-- The fields of `struct sockaddr_in` that `opensock` sets. -/
structure SockAddrIn where
  sin_family : Nat
  sin_port : Nat
  sin_addr : Nat
  deriving DecidableEq, Repr

/-- The calls `opensock` makes to its collaborators, as they are observed from
outside.  Every `log_message` call of `opensock` is at level `LOG_ERR`. -/
inductive Call where
  | dnscache (host : String)
  | socket (domain : Nat)
  | connect (fd : Int) (addr : SockAddrIn)
  | log_message (msg : String)
  deriving DecidableEq, Repr

/-- The collaborators of `opensock`: the header constant `AF_INET`, `htons`,
the resolver `dnscache` (value returned and address written through its first
argument), the results of `socket` and `connect` with the `errno` each leaves,
and `strerror`. -/
structure Env where
  AF_INET : Nat
  htons : Nat → Nat
  dnscache : String → Int × Nat
  socket : Int
  socketErrno : Nat
  connect : Int → SockAddrIn → Int
  connectErrno : Nat
  strerror : Nat → String

/-- The function `opensock(ip_addr, port)`.  Returns the value returned and the
calls made to the collaborators in order; `none` when `assert(port > 0)` fails
(`ip_addr` is a string, so `assert(ip_addr != NULL)` holds). -/
def opensock (env : Env) (ip_addr : String) (port : Nat) : Option (Int × List Call) :=
  if 0 < port then
    let port_info : SockAddrIn := ⟨env.AF_INET, 0, 0⟩
    let (ret, addr) := env.dnscache ip_addr
    let port_info := { port_info with sin_addr := addr }
    let t1 := [Call.dnscache ip_addr]
    if ret < 0 then
      some (-1, t1 ++ [Call.log_message ("Could not lookup address [" ++ ip_addr ++ "].")])
    else
      let port_info := { port_info with sin_port := env.htons port }
      let sock_fd := env.socket
      let t2 := t1 ++ [Call.socket env.AF_INET]
      if sock_fd = -1 then
        some (-1, t2 ++ [Call.log_message
          ("Could not create socket because of '" ++ env.strerror env.socketErrno ++ "'.")])
      else
        let t3 := t2 ++ [Call.connect sock_fd port_info]
        if env.connect sock_fd port_info < 0 then
          some (-1, t3 ++ [Call.log_message
            ("Could not connect socket because of '" ++ env.strerror env.connectErrno ++ "'")])
        else some (sock_fd, t3)
  else none

/-- Number of `log_message` calls in a trace. -/
def logCount (t : List Call) : Nat :=
  (t.filter (fun c => match c with | Call.log_message _ => true | _ => false)).length

/-- Number of `dnscache` calls in a trace. -/
def dnsCount (t : List Call) : Nat :=
  (t.filter (fun c => match c with | Call.dnscache _ => true | _ => false)).length

/-- Number of `socket` and `connect` calls in a trace. -/
def socketCallCount (t : List Call) : Nat :=
  (t.filter (fun c => match c with
    | Call.socket _ => true
    | Call.connect _ _ => true
    | _ => false)).length

/-- Value of a run of decimal digits, `none` when the run is empty, holds a
character that is not a digit, or is worth more than 255. -/
def octetValue (cs : List Char) : Option Nat :=
  if cs = [] ∨ ¬ cs.all Char.isDigit then none
  else
    let v := cs.foldl (fun acc ch => 10 * acc + (ch.toNat - 48)) 0
    if v ≤ 255 then some v else none

/-- Split a list of characters at every `.`. -/
def splitDots : List Char → List (List Char)
  | [] => [[]]
  | ch :: cs =>
    match splitDots cs with
    | [] => [[ch]]
    | g :: gs => if ch = '.' then [] :: g :: gs else (ch :: g) :: gs

/-- Modelled from the spec: the test for the dotted-decimal form of a host,
which the resolver `dnscache` makes and `src/` does not hold: four decimal
numbers from 0 to 255 separated by dots. -/
def isDottedDecimal (host : String) : Bool :=
  let groups := splitDots host.toList
  groups.length = 4 ∧ groups.all (fun g => (octetValue g).isSome)

/-- The buffer content used in the examples: every cell holds `'x'`. -/
def xBuffer : Nat → Nat := fun _ => 120

/-- A collaborator set for the examples: resolution succeeds with address
`addr`, `socket` returns `fd`, `connect` returns `conn`. -/
def exampleEnv (dnsRet : Int) (fd conn : Int) : Env :=
  { AF_INET := 2
    htons := fun p => (p % 256) * 256 + p / 256
    dnscache := fun _ => (dnsRet, 2130706433)
    socket := fd
    socketErrno := 24
    connect := fun _ _ => conn
    connectErrno := 111
    strerror := fun _ => "error" }

/-- The reads that come before the newline of a complete line: each one either
delivers a byte that is not a newline or is interrupted by a signal (any
return value other than 1 and 0, with `errno == EINTR`). -/
def LineHead (EINTR : Nat) (pre : List ReadResult) : Prop :=
  ∀ x ∈ pre, (x.rc = 1 ∧ x.c ≠ 10) ∨ (x.rc ≠ 1 ∧ x.rc ≠ 0 ∧ x.errno = EINTR)

instance (EINTR : Nat) (pre : List ReadResult) : Decidable (LineHead EINTR pre) := by
  unfold LineHead; infer_instance

/-- Reads that are all interrupted by a signal. -/
def Interrupted (EINTR : Nat) (pre : List ReadResult) : Prop :=
  ∀ x ∈ pre, x.rc ≠ 1 ∧ x.rc ≠ 0 ∧ x.errno = EINTR

instance (EINTR : Nat) (pre : List ReadResult) : Decidable (Interrupted EINTR pre) := by
  unfold Interrupted; infer_instance

/-- The request line `"GET / HTTP/1.0\r\n"` as bytes. -/
def requestLine : List Nat :=
  [71, 69, 84, 32, 47, 32, 72, 84, 84, 80, 47, 49, 46, 48, 13, 10]

/-- System call results that are all signal interruptions: a negative value
with `errno == EINTR`. -/
def AllEintr (EINTR : Nat) (pre : List SysResult) : Prop :=
  ∀ x ∈ pre, x.len < 0 ∧ x.errno = EINTR

instance (EINTR : Nat) (pre : List SysResult) : Decidable (AllEintr EINTR pre) := by
  unfold AllEintr; infer_instance

/-- The address structure `opensock` hands to `connect` for `host` and `port`. -/
def connectAddr (env : Env) (host : String) (port : Nat) : SockAddrIn :=
  ⟨env.AF_INET, env.htons port, (env.dnscache host).2⟩

/-! ## Lemmas on buffers and scripts -/

theorem dataBytes_nil : dataBytes [] = [] := rfl

theorem dataBytes_cons_data (r : ReadResult) (l : List ReadResult) (h : r.rc = 1) :
    dataBytes (r :: l) = r.c :: dataBytes l := by
  simp [dataBytes, h]

theorem dataBytes_cons_skip (r : ReadResult) (l : List ReadResult) (h : ¬ r.rc = 1) :
    dataBytes (r :: l) = dataBytes l := by
  simp [dataBytes, h]

theorem dataBytes_append (l₁ l₂ : List ReadResult) :
    dataBytes (l₁ ++ l₂) = dataBytes l₁ ++ dataBytes l₂ := by
  simp [dataBytes]

theorem take_of_append {α : Type} (pre rest script : List α) (h : script = pre ++ rest) :
    script.take (script.length - rest.length) = pre := by
  subst h; simp

theorem content_put (b : Buffer) (c : Nat) :
    (b.put c).content (b.ptr + 1) = b.content b.ptr ++ [c] := by
  simp only [Buffer.content, Buffer.put, List.range_succ, List.map_append, List.map_cons,
    List.map_nil, Function.update_same]
  congr 1
  apply List.map_congr_left
  intro i hi
  have : i ≠ b.ptr := Nat.ne_of_lt (List.mem_range.mp hi)
  simp [Function.update_noteq this]

theorem content_terminate (b : Buffer) :
    b.terminate.content b.ptr = b.content b.ptr := by
  simp only [Buffer.content, Buffer.terminate]
  apply List.map_congr_left
  intro i hi
  have : i ≠ b.ptr := Nat.ne_of_lt (List.mem_range.mp hi)
  simp [Function.update_noteq this]

theorem stored_finish (n : Nat) (b : Buffer) (rest : List ReadResult) :
    (finish n b rest).stored = b.content b.ptr := by
  simp only [Outcome.stored, finish]
  exact content_terminate b

/-- Every byte `again` takes from the script is stored, in order: the script
splits into a used part and the rest, and the stored bytes are those already in
the buffer followed by the data bytes of the used part. -/
theorem again_consumed (EINTR maxlen : Nat) (script : List ReadResult) :
    ∀ (n : Nat) (b : Buffer), ∃ pre,
      script = pre ++ (again EINTR maxlen script n b).rest ∧
      (again EINTR maxlen script n b).stored = b.content b.ptr ++ dataBytes pre := by
  induction script with
  | nil =>
    intro n b
    refine ⟨[], ?_, ?_⟩
    · unfold again; split <;> simp [finish]
    · unfold again
      split
      · simp [Outcome.stored, dataBytes_nil]
      · simp [stored_finish, dataBytes_nil]
  | cons r rest ih =>
    intro n b
    unfold again
    by_cases h1 : r.rc = 1
    · simp only [h1, if_true]
      by_cases hc : r.c = 10
      · simp only [hc, if_true]
        refine ⟨[r], by simp [finish], ?_⟩
        rw [stored_finish, dataBytes_cons_data r [] h1, dataBytes_nil, hc]
        exact content_put b 10
      · simp only [hc, if_false]
        by_cases hn : n + 1 < maxlen
        · simp only [hn, if_true]
          obtain ⟨pre, hs, hst⟩ := ih (n + 1) (b.put r.c)
          refine ⟨r :: pre, by simpa using hs, ?_⟩
          rw [hst, dataBytes_cons_data r pre h1]
          have := content_put b r.c
          simp only [Buffer.put] at this ⊢
          rw [this]; simp
        · simp only [hn, if_false]
          refine ⟨[r], by simp [finish], ?_⟩
          rw [stored_finish, dataBytes_cons_data r [] h1, dataBytes_nil]
          exact content_put b r.c
    · simp only [h1, if_false]
      by_cases h0 : r.rc = 0
      · simp only [h0, if_true]
        refine ⟨[r], ?_, ?_⟩
        · split <;> simp [finish]
        · rw [dataBytes_cons_skip r [] h1, dataBytes_nil]
          split
          · simp [Outcome.stored]
          · simp [stored_finish]
      · simp only [h0, if_false]
        by_cases he : r.errno = EINTR
        · simp only [he, if_true]
          obtain ⟨pre, hs, hst⟩ := ih n b
          refine ⟨r :: pre, by simpa using hs, ?_⟩
          rw [hst, dataBytes_cons_skip r pre h1]
        · simp only [he, if_false]
          refine ⟨[r], by simp, ?_⟩
          rw [dataBytes_cons_skip r [] h1, dataBytes_nil]
          simp [Outcome.stored]

theorem putAll_ptr (l : List Nat) : ∀ b : Buffer, (b.putAll l).ptr = b.ptr + l.length := by
  induction l with
  | nil => intro b; rfl
  | cons c l ih =>
    intro b
    show ((b.put c).putAll l).ptr = _
    rw [ih]; simp [Buffer.put]; omega

theorem putAll_content (l : List Nat) :
    ∀ b : Buffer, (b.putAll l).content (b.ptr + l.length) = b.content b.ptr ++ l := by
  induction l with
  | nil => intro b; simp [Buffer.putAll]
  | cons c l ih =>
    intro b
    show ((b.put c).putAll l).content _ = _
    have h := ih (b.put c)
    have hp : (b.put c).ptr = b.ptr + 1 := rfl
    rw [hp, content_put] at h
    have e : b.ptr + (c :: l).length = b.ptr + 1 + l.length := by simp; omega
    rw [e, h]; simp

/-- On a script that holds a complete line within the capacity, `again` leaves
through the newline exit with every byte of the line stored. -/
theorem again_line (EINTR maxlen : Nat) (r : ReadResult) (rest : List ReadResult)
    (hr : r.rc = 1) (hnl : r.c = 10) (pre : List ReadResult) :
    ∀ (n : Nat) (b : Buffer), LineHead EINTR pre → n + (dataBytes pre).length < maxlen →
      again EINTR maxlen (pre ++ r :: rest) n b =
        finish (n + (dataBytes pre).length) ((b.putAll (dataBytes pre)).put 10) rest := by
  induction pre with
  | nil =>
    intro n b _ _
    simp [again, hr, hnl, dataBytes_nil, Buffer.putAll]
  | cons x pre ih =>
    intro n b hpre hcap
    have hx := hpre x (List.mem_cons_self _ _)
    have hpre' : LineHead EINTR pre := fun y hy => hpre y (List.mem_cons_of_mem _ hy)
    rcases hx with ⟨h1, hc⟩ | ⟨h1, h0, he⟩
    · rw [dataBytes_cons_data x pre h1] at hcap ⊢
      simp only [List.length_cons] at hcap
      have hn : n + 1 < maxlen := by omega
      have := ih (n + 1) (b.put x.c) hpre' (by omega)
      simp only [List.cons_append, again, h1, hc, hn, if_true, if_false]
      refine this.trans ?_
      simp only [List.length_cons, Buffer.putAll, List.foldl_cons]
      congr 1; omega
    · rw [dataBytes_cons_skip x pre h1] at hcap ⊢
      have := ih n b hpre' hcap
      simp only [List.cons_append, again, h1, h0, he, if_true, if_false]
      exact this

/-- On a script whose first read that is not interrupted reports end-of-stream,
`again` entered with `n = 1` returns 0 and leaves the buffer as it was. -/
theorem again_eof (EINTR maxlen : Nat) (r : ReadResult) (rest : List ReadResult)
    (hr : r.rc = 0) (b : Buffer) (pre : List ReadResult) :
    Interrupted EINTR pre →
      again EINTR maxlen (pre ++ r :: rest) 1 b = ⟨0, b, rest⟩ := by
  induction pre with
  | nil =>
    intro _
    simp [again, hr]
  | cons x pre ih =>
    intro hpre
    obtain ⟨h1, h0, he⟩ := hpre x (List.mem_cons_self _ _)
    have := ih (fun y hy => hpre y (List.mem_cons_of_mem _ hy))
    simp only [List.cons_append, again, h1, h0, he, if_true, if_false]
    exact this

/-- With room for at least one byte, `again` writes only below the capacity. -/
theorem again_writes (EINTR maxlen : Nat) (script : List ReadResult) :
    ∀ (n : Nat) (b : Buffer), n < maxlen → b.ptr + 1 = n → (∀ i ∈ b.writes, i < maxlen) →
      (∀ i ∈ (again EINTR maxlen script n b).buf.writes, i < maxlen) ∧
      (again EINTR maxlen script n b).buf.ptr < maxlen := by
  induction script with
  | nil =>
    intro n b hn hp hw
    unfold again
    split
    · exact ⟨hw, by show b.ptr < maxlen; omega⟩
    · refine ⟨?_, by simp only [finish, Buffer.terminate]; omega⟩
      intro i hi
      simp only [finish, Buffer.terminate, List.mem_append, List.mem_singleton] at hi
      rcases hi with hi | hi
      · exact hw i hi
      · omega
  | cons r rest ih =>
    intro n b hn hp hw
    have hw1 : ∀ i ∈ (b.put r.c).writes, i < maxlen := by
      intro i hi
      simp only [Buffer.put, List.mem_append, List.mem_singleton] at hi
      rcases hi with hi | hi
      · exact hw i hi
      · omega
    have hfin : ∀ (m : Nat) (b' : Buffer), b'.ptr < maxlen → (∀ i ∈ b'.writes, i < maxlen) →
        (∀ i ∈ (finish m b' rest).buf.writes, i < maxlen) ∧
        (finish m b' rest).buf.ptr < maxlen := by
      intro m b' hb' hw'
      refine ⟨?_, hb'⟩
      intro i hi
      simp only [finish, Buffer.terminate, List.mem_append, List.mem_singleton] at hi
      rcases hi with hi | hi
      · exact hw' i hi
      · omega
    unfold again
    by_cases h1 : r.rc = 1
    · simp only [h1, if_true]
      by_cases hc : r.c = 10
      · simp only [hc, if_true]
        rw [hc] at hw1
        exact hfin n _ (by simp only [Buffer.put]; omega) hw1
      · simp only [hc, if_false]
        by_cases hn1 : n + 1 < maxlen
        · simp only [hn1, if_true]
          exact ih (n + 1) (b.put r.c) hn1 (by simp only [Buffer.put]; omega) hw1
        · simp only [hn1, if_false]
          exact hfin (n + 1) _ (by simp only [Buffer.put]; omega) hw1
    · simp only [h1, if_false]
      by_cases h0 : r.rc = 0
      · simp only [h0, if_true]
        split
        · exact ⟨hw, by show b.ptr < maxlen; omega⟩
        · exact hfin n b (by omega) hw
      · simp only [h0, if_false]
        by_cases he : r.errno = EINTR
        · simp only [he, if_true]
          exact ih n b hn hp hw
        · simp only [he, if_false]
          exact ⟨hw, by show b.ptr < maxlen; omega⟩

/-- With a capacity of at least 1, every index `readline` writes, the
terminator's included, is below the capacity, and at most `maxlen - 1` data
bytes are stored. -/
theorem readline_writes_below_capacity (EINTR maxlen : Nat) (init : Nat → Nat)
    (script : List ReadResult) (hcap : 1 ≤ maxlen) :
    (∀ i ∈ (readline EINTR script init maxlen).buf.writes, i < maxlen) ∧
    (readline EINTR script init maxlen).buf.ptr ≤ maxlen - 1 := by
  unfold readline
  split
  · rename_i h
    have := again_writes EINTR maxlen script 1 ⟨init, 0, []⟩ h rfl (by simp)
    exact ⟨this.1, by omega⟩
  · refine ⟨?_, by simp [finish, Buffer.terminate]⟩
    intro i hi
    simp only [finish, Buffer.terminate, List.nil_append, List.mem_singleton] at hi
    omega

/-- Unless `again` returns -1 or 0, the byte under the final `ptr` is NUL. -/
theorem again_terminated (EINTR maxlen : Nat) (script : List ReadResult) :
    ∀ (n : Nat) (b : Buffer),
      (again EINTR maxlen script n b).ret = -1 ∨ (again EINTR maxlen script n b).ret = 0 ∨
      (again EINTR maxlen script n b).buf.cell (again EINTR maxlen script n b).buf.ptr = 0 := by
  have hfin : ∀ (m : Nat) (b' : Buffer) (l : List ReadResult),
      (finish m b' l).buf.cell (finish m b' l).buf.ptr = 0 := by
    intro m b' l
    simp [finish, Buffer.terminate]
  induction script with
  | nil =>
    intro n b
    unfold again
    split
    · exact Or.inr (Or.inl rfl)
    · exact Or.inr (Or.inr (hfin _ _ _))
  | cons r rest ih =>
    intro n b
    unfold again
    by_cases h1 : r.rc = 1
    · simp only [h1, if_true]
      by_cases hc : r.c = 10
      · simp only [hc, if_true]
        exact Or.inr (Or.inr (hfin _ _ _))
      · simp only [hc, if_false]
        split
        · exact ih _ _
        · exact Or.inr (Or.inr (hfin _ _ _))
    · simp only [h1, if_false]
      by_cases h0 : r.rc = 0
      · simp only [h0, if_true]
        split
        · exact Or.inr (Or.inl rfl)
        · exact Or.inr (Or.inr (hfin _ _ _))
      · simp only [h0, if_false]
        by_cases he : r.errno = EINTR
        · simp only [he, if_true]
          exact ih _ _
        · simp only [he, if_false]
          exact Or.inl trivial

/-- Whenever `readline` returns a value other than -1 and 0, the buffer holds a
NUL right after the stored data bytes. -/
theorem readline_terminated_on_positive_return (EINTR maxlen : Nat) (init : Nat → Nat)
    (script : List ReadResult)
    (hret : (readline EINTR script init maxlen).ret ≠ -1)
    (hret0 : (readline EINTR script init maxlen).ret ≠ 0) :
    (readline EINTR script init maxlen).buf.cell (readline EINTR script init maxlen).buf.ptr
      = 0 := by
  unfold readline at hret hret0 ⊢
  split
  · rename_i h
    simp only [h, if_true] at hret hret0
    rcases again_terminated EINTR maxlen script 1 ⟨init, 0, []⟩ with h1 | h1 | h1
    · exact absurd h1 hret
    · exact absurd h1 hret0
    · exact h1
  · simp [finish, Buffer.terminate]

/-! ## `readline`: the value returned and the terminator -/

/-- C1: the value `readline` returns is not the number of data bytes stored on
two of its exits.  When end-of-stream arrives after the bytes `"ab"` the call
returns 3 with 2 bytes stored, and when the capacity 3 fills on the stream
`"abc"` the call returns 3 with 2 bytes stored. -/
theorem readline_return_exceeds_stored :
    (readline 4 [ReadResult.data 97, ReadResult.data 98, ReadResult.eof] xBuffer 10).ret = 3 ∧
    (readline 4 [ReadResult.data 97, ReadResult.data 98, ReadResult.eof] xBuffer 10).stored
      = [97, 98] ∧
    (readline 4 [ReadResult.data 97, ReadResult.data 98, ReadResult.data 99] xBuffer 3).ret = 3 ∧
    (readline 4 [ReadResult.data 97, ReadResult.data 98, ReadResult.data 99] xBuffer 3).stored
      = [97, 98] := by
  decide

/-- C2: on immediate end-of-stream `readline` returns 0 without writing the
terminator: with capacity 4 and a buffer that holds `'x'` at index 0, the call
returns 0, writes nothing, and index 0 still holds `'x'`. -/
theorem readline_eof_leaves_buffer_unterminated :
    (readline 4 [ReadResult.eof] xBuffer 4).ret = 0 ∧
    (readline 4 [ReadResult.eof] xBuffer 4).buf.writes = [] ∧
    (readline 4 [ReadResult.eof] xBuffer 4).buf.cell 0 = 120 := by
  decide

/-- C3: with capacity 0 `readline` writes the terminator at index 0, which is
not below the capacity. -/
theorem readline_zero_capacity_writes_index_zero :
    (readline 4 [ReadResult.data 97] xBuffer 0).buf.writes = [0] ∧
    (readline 4 [ReadResult.data 97] xBuffer 0).buf.cell 0 = 0 ∧
    ¬ (∀ i ∈ (readline 4 [ReadResult.data 97] xBuffer 0).buf.writes, i < 0) := by
  decide

/-- C4: on a stream that is at end-of-stream `readline` called with capacity 1
returns 1, not 0: the loop is not entered, nothing is read or stored, and the
capacity exit returns the counter `n = 1`, one more than the number of bytes
stored. -/
theorem readline_eof_capacity_one :
    ReadResult.eof.rc = 0 ∧ (readline 4 [ReadResult.eof] xBuffer 1).ret = 1 ∧
    (readline 4 [ReadResult.eof] xBuffer 1).stored = [] ∧
    (readline 4 [ReadResult.eof] xBuffer 1).rest = [ReadResult.eof] := by
  decide

/-- With a capacity of at least 2, on a stream whose first read that is not
interrupted by a signal reports end-of-stream, `readline` returns 0 and leaves
the rest of the stream unread. -/
theorem readline_eof_with_room (EINTR maxlen : Nat) (init : Nat → Nat)
    (pre : List ReadResult) (r : ReadResult) (rest : List ReadResult)
    (hpre : Interrupted EINTR pre) (hr : r.rc = 0) (hcap : 2 ≤ maxlen) :
    (readline EINTR (pre ++ r :: rest) init maxlen).ret = 0 ∧
    (readline EINTR (pre ++ r :: rest) init maxlen).rest = rest := by
  have h1 : 1 < maxlen := by omega
  simp only [readline, h1, if_true]
  rw [again_eof EINTR maxlen r rest hr _ pre hpre]
  exact ⟨rfl, rfl⟩

/-- C5: when the first newline of the stream is its `k`-th byte, no read before
it fails or reports end-of-stream, and `k < maxlen`, `readline` returns `k`,
the buffer holds exactly the first `k` bytes of the stream with the newline
last, and index `k` holds the NUL terminator. -/
theorem readline_complete_line (EINTR maxlen : Nat) (init : Nat → Nat)
    (pre : List ReadResult) (r : ReadResult) (rest : List ReadResult) (k : Nat)
    (hpre : LineHead EINTR pre) (hr : r.rc = 1) (hnl : r.c = 10)
    (hk : k = (dataBytes pre).length + 1) (hcap : k < maxlen) :
    (readline EINTR (pre ++ r :: rest) init maxlen).ret = k ∧
    (readline EINTR (pre ++ r :: rest) init maxlen).buf.ptr = k ∧
    (readline EINTR (pre ++ r :: rest) init maxlen).stored
      = (dataBytes (pre ++ r :: rest)).take k ∧
    (readline EINTR (pre ++ r :: rest) init maxlen).stored.getLast? = some 10 ∧
    (readline EINTR (pre ++ r :: rest) init maxlen).buf.cell k = 0 ∧
    (readline EINTR (pre ++ r :: rest) init maxlen).rest = rest := by
  have h1 : 1 < maxlen := by omega
  have hl := again_line EINTR maxlen r rest hr hnl pre 1 ⟨init, 0, []⟩ hpre (by omega)
  have hp : ((Buffer.mk init 0 []).putAll (dataBytes pre)).ptr = (dataBytes pre).length := by
    rw [putAll_ptr]; simp
  have hc := putAll_content (dataBytes pre) ⟨init, 0, []⟩
  simp only [Nat.zero_add, Buffer.content, List.range_zero, List.map_nil, List.nil_append] at hc
  have hst : (readline EINTR (pre ++ r :: rest) init maxlen).stored = dataBytes pre ++ [10] := by
    simp only [readline, h1, if_true, hl, stored_finish]
    have := content_put ((Buffer.mk init 0 []).putAll (dataBytes pre)) 10
    rw [hp] at this
    simp only [Buffer.put, hp] at this ⊢
    rw [this]
    simp only [Buffer.content, hc]
  have htake : (dataBytes (pre ++ r :: rest)).take k = dataBytes pre ++ [10] := by
    rw [dataBytes_append, dataBytes_cons_data r rest hr, hnl, hk]
    rw [List.take_append, List.take_succ_cons, List.take_zero]
  refine ⟨?_, ?_, ?_, ?_, ?_, ?_⟩
  · simp only [readline, h1, if_true, hl, finish, hk]
    push_cast; ring
  · simp only [readline, h1, if_true, hl, finish, Buffer.terminate, Buffer.put, hp, hk]
  · rw [hst, htake]
  · rw [hst]; simp
  · simp only [readline, h1, if_true, hl, finish, Buffer.terminate, Buffer.put, hp, hk,
      Function.update_same]
  · simp only [readline, h1, if_true, hl, finish]

theorem readline_complete_line_witness :
    (readline 4 ((requestLine.take 15).map ReadResult.data ++ ReadResult.data 10 :: []) xBuffer 18).ret
      = 16 ∧
    (readline 4 ((requestLine.take 15).map ReadResult.data ++ ReadResult.data 10 :: []) xBuffer 18).stored
      = requestLine ∧
    (readline 4 ((requestLine.take 15).map ReadResult.data ++ ReadResult.data 10 :: []) xBuffer
      18).buf.cell 16 = 0 := by
  have h := readline_complete_line 4 18 xBuffer ((requestLine.take 15).map ReadResult.data)
    (ReadResult.data 10) [] 16 (by decide) (by decide) (by decide) (by decide) (by decide)
  refine ⟨h.1, ?_, h.2.2.2.2.1⟩
  rw [h.2.2.1]
  decide

/-- C10: for every capacity and every stream, interrupted and failing reads
included, the reads `readline` uses up are a prefix of the stream, the data
bytes of that prefix are exactly the bytes it stored, in order, and the bytes
of the stream are the stored bytes followed by the bytes still to be read. -/
theorem readline_consumes_what_it_stores (EINTR maxlen : Nat) (init : Nat → Nat)
    (script : List ReadResult) :
    script = (readline EINTR script init maxlen).consumed script
      ++ (readline EINTR script init maxlen).rest ∧
    dataBytes ((readline EINTR script init maxlen).consumed script)
      = (readline EINTR script init maxlen).stored ∧
    dataBytes script = (readline EINTR script init maxlen).stored
      ++ dataBytes (readline EINTR script init maxlen).rest := by
  have key : ∃ pre, script = pre ++ (readline EINTR script init maxlen).rest ∧
      (readline EINTR script init maxlen).stored = dataBytes pre := by
    unfold readline
    split
    · obtain ⟨pre, h1, h2⟩ := again_consumed EINTR maxlen script 1 ⟨init, 0, []⟩
      exact ⟨pre, h1, by simpa [Buffer.content] using h2⟩
    · exact ⟨[], by simp [finish], by simp [stored_finish, Buffer.content, dataBytes_nil]⟩
  obtain ⟨pre, h1, h2⟩ := key
  have hc : (readline EINTR script init maxlen).consumed script = pre := by
    exact take_of_append pre _ script h1
  rw [hc, h2]
  refine ⟨h1, rfl, ?_⟩
  conv_lhs => rw [h1]
  rw [dataBytes_append]

/-! ## `safe_read` / `safe_write` -/

theorem safe_read_retry (EINTR : Nat) (r : SysResult) (rest : List SysResult)
    (hr : ¬ (r.len < 0 ∧ r.errno = EINTR)) (pre : List SysResult) :
    AllEintr EINTR pre →
      safe_read EINTR (pre ++ r :: rest) = some (r.len, pre.length + 1, rest) := by
  induction pre with
  | nil => intro _; simp [safe_read, hr]
  | cons x pre ih =>
    intro hpre
    have hx := hpre x (List.mem_cons_self _ _)
    have := ih (fun y hy => hpre y (List.mem_cons_of_mem _ hy))
    show safe_read EINTR (x :: (pre ++ r :: rest)) = _
    rw [safe_read, if_pos hx, this]
    rfl

theorem safe_write_retry (EINTR : Nat) (r : SysResult) (rest : List SysResult)
    (hr : ¬ (r.len < 0 ∧ r.errno = EINTR)) (pre : List SysResult) :
    AllEintr EINTR pre →
      safe_write EINTR (pre ++ r :: rest) = some (r.len, pre.length + 1, rest) := by
  induction pre with
  | nil => intro _; simp [safe_write, hr]
  | cons x pre ih =>
    intro hpre
    have hx := hpre x (List.mem_cons_self _ _)
    have := ih (fun y hy => hpre y (List.mem_cons_of_mem _ hy))
    show safe_write EINTR (x :: (pre ++ r :: rest)) = _
    rw [safe_write, if_pos hx, this]
    rfl

/-- C6: when the operating system answers with `k` signal interruptions
(negative value, `errno == EINTR`) followed by a result `r` that is not one,
`safe_read` and `safe_write` each return `r` unchanged after exactly `k + 1`
calls, and the value is the one an uninterrupted call returning `r` gives: a
short count or another failure is returned as is after a single call. -/
theorem safe_io_retries_only_eintr (EINTR : Nat) (pre : List SysResult) (r : SysResult)
    (rest : List SysResult) (hpre : AllEintr EINTR pre)
    (hr : ¬ (r.len < 0 ∧ r.errno = EINTR)) :
    safe_read EINTR (pre ++ r :: rest) = some (r.len, pre.length + 1, rest) ∧
    safe_write EINTR (pre ++ r :: rest) = some (r.len, pre.length + 1, rest) ∧
    safe_read EINTR (r :: rest) = some (r.len, 1, rest) ∧
    safe_write EINTR (r :: rest) = some (r.len, 1, rest) :=
  ⟨safe_read_retry EINTR r rest hr pre hpre, safe_write_retry EINTR r rest hr pre hpre,
    safe_read_retry EINTR r rest hr [] (fun _ h => absurd h (List.not_mem_nil _)),
    safe_write_retry EINTR r rest hr [] (fun _ h => absurd h (List.not_mem_nil _))⟩

theorem safe_io_retries_only_eintr_witness :
    safe_read 4 ([⟨-1, 4⟩, ⟨-1, 4⟩] ++ ⟨3, 4⟩ :: [⟨7, 0⟩]) = some (3, 3, [⟨7, 0⟩]) ∧
    safe_write 4 ([⟨-1, 4⟩, ⟨-1, 4⟩] ++ ⟨3, 4⟩ :: [⟨7, 0⟩]) = some (3, 3, [⟨7, 0⟩]) ∧
    safe_read 4 (⟨3, 4⟩ :: [⟨7, 0⟩]) = some (3, 1, [⟨7, 0⟩]) ∧
    safe_write 4 (⟨3, 4⟩ :: [⟨7, 0⟩]) = some (3, 1, [⟨7, 0⟩]) :=
  safe_io_retries_only_eintr 4 [⟨-1, 4⟩, ⟨-1, 4⟩] ⟨3, 4⟩ [⟨7, 0⟩] (by decide) (by decide)

/-! ## `socket_nonblocking` / `socket_blocking` -/

theorem int_eq_of_testBit_eq : ∀ (m n : Int), (∀ i, m.testBit i = n.testBit i) → m = n
  | (a : Nat), (b : Nat), h => by
    have : a = b := Nat.eq_of_testBit_eq (fun i => by simpa [Int.testBit] using h i)
    rw [this]
  | (a : Nat), Int.negSucc b, h => by
    exfalso
    have h1 := h (a + b)
    have ha : a.testBit (a + b) = false :=
      Nat.testBit_lt_two_pow (lt_of_le_of_lt (Nat.le_add_right a b) (Nat.lt_two_pow _))
    have hb : b.testBit (a + b) = false :=
      Nat.testBit_lt_two_pow (lt_of_le_of_lt (Nat.le_add_left b a) (Nat.lt_two_pow _))
    simp [Int.testBit, ha, hb] at h1
  | Int.negSucc a, (b : Nat), h => by
    exfalso
    have h1 := h (a + b)
    have ha : a.testBit (a + b) = false :=
      Nat.testBit_lt_two_pow (lt_of_le_of_lt (Nat.le_add_right a b) (Nat.lt_two_pow _))
    have hb : b.testBit (a + b) = false :=
      Nat.testBit_lt_two_pow (lt_of_le_of_lt (Nat.le_add_left b a) (Nat.lt_two_pow _))
    simp [Int.testBit, ha, hb] at h1
  | Int.negSucc a, Int.negSucc b, h => by
    have : a = b := Nat.eq_of_testBit_eq (fun i => by simpa [Int.testBit] using h i)
    rw [this]

/-- C7: with every `fcntl` call succeeding, `socket_nonblocking` followed by
`socket_blocking` returns 0 twice and leaves the status flags with every bit
of `O_NONBLOCK` clear and every other bit as in the original flags `f`; the
flags are `f` again when no bit of `O_NONBLOCK` was set in `f`. -/
theorem nonblocking_then_blocking (O_NONBLOCK f : Int) :
    (socket_nonblocking O_NONBLOCK true true f).1 = 0 ∧
    (socket_blocking O_NONBLOCK true true (socket_nonblocking O_NONBLOCK true true f).2).1 = 0 ∧
    (∀ i, (socket_blocking O_NONBLOCK true true
        (socket_nonblocking O_NONBLOCK true true f).2).2.testBit i
      = (f.testBit i && !O_NONBLOCK.testBit i)) ∧
    (Int.land f O_NONBLOCK = 0 →
      (socket_blocking O_NONBLOCK true true (socket_nonblocking O_NONBLOCK true true f).2).2
        = f) := by
  have hbits : ∀ i, (Int.land (Int.lor f O_NONBLOCK) (Int.lnot O_NONBLOCK)).testBit i
      = (f.testBit i && !O_NONBLOCK.testBit i) := by
    intro i
    rw [Int.testBit_land, Int.testBit_lor, Int.testBit_lnot]
    cases f.testBit i <;> cases O_NONBLOCK.testBit i <;> rfl
  refine ⟨rfl, rfl, ?_, ?_⟩
  · intro i
    simpa [socket_blocking, socket_nonblocking, fcntl_getfl, fcntl_setfl] using hbits i
  · intro h0
    have : Int.land (Int.lor f O_NONBLOCK) (Int.lnot O_NONBLOCK) = f := by
      apply int_eq_of_testBit_eq
      intro i
      rw [hbits i]
      have hz : (Int.land f O_NONBLOCK).testBit i = false := by
        rw [h0]; simp [Int.testBit]
      rw [Int.testBit_land] at hz
      cases hf : f.testBit i <;> cases ho : O_NONBLOCK.testBit i <;> simp_all
    simpa [socket_blocking, socket_nonblocking, fcntl_getfl, fcntl_setfl] using this

theorem nonblocking_then_blocking_witness :
    (socket_blocking 2048 true true (socket_nonblocking 2048 true true 2).2).2 = 2 :=
  (nonblocking_then_blocking 2048 2).2.2.2 (by decide)

/-! ## `opensock` -/

/-- C8: for a port above 0, `opensock` returns. When resolution fails it
returns -1 having logged one message and made no `socket` or `connect` call;
when `socket` or `connect` fails it returns -1 having logged one message;
otherwise it returns the descriptor from `socket` and logs nothing. -/
theorem opensock_outcomes (env : Env) (host : String) (port : Nat) (hport : 0 < port) :
    (opensock env host port).isSome = true ∧
    ((env.dnscache host).1 < 0 →
      (opensock env host port).map Prod.fst = some (-1) ∧
      (opensock env host port).map (fun p => logCount p.2) = some 1 ∧
      (opensock env host port).map (fun p => socketCallCount p.2) = some 0) ∧
    (¬ (env.dnscache host).1 < 0 → env.socket = -1 →
      (opensock env host port).map Prod.fst = some (-1) ∧
      (opensock env host port).map (fun p => logCount p.2) = some 1) ∧
    (¬ (env.dnscache host).1 < 0 → env.socket ≠ -1 →
      env.connect env.socket (connectAddr env host port) < 0 →
      (opensock env host port).map Prod.fst = some (-1) ∧
      (opensock env host port).map (fun p => logCount p.2) = some 1) ∧
    (¬ (env.dnscache host).1 < 0 → env.socket ≠ -1 →
      ¬ env.connect env.socket (connectAddr env host port) < 0 →
      (opensock env host port).map Prod.fst = some env.socket ∧
      (opensock env host port).map (fun p => logCount p.2) = some 0) := by
  refine ⟨?_, ?_, ?_, ?_, ?_⟩
  · simp only [opensock, hport, if_true]
    split <;> (try split) <;> (try split) <;> rfl
  · intro hd
    simp [opensock, hport, hd, logCount, socketCallCount]
  · intro hd hs
    simp [opensock, hport, hd, hs, logCount]
  · intro hd hs hc
    simp only [connectAddr] at hc
    simp [opensock, hport, hd, hs, hc, logCount]
  · intro hd hs hc
    simp only [connectAddr] at hc
    simp [opensock, hport, hd, hs, hc, logCount]

theorem opensock_outcomes_witness :
    (opensock (exampleEnv 0 3 (-1)) "10.0.0.1" 8080).map Prod.fst = some (-1) ∧
    (opensock (exampleEnv 0 3 (-1)) "10.0.0.1" 8080).map (fun p => logCount p.2) = some 1 :=
  (opensock_outcomes (exampleEnv 0 3 (-1)) "10.0.0.1" 8080 (by decide)).2.2.2.1
    (by decide) (by decide) (by decide)

/-- C9, as stated, fails: for the dotted-decimal host `"127.0.0.1"` `opensock`
calls `dnscache`, and the call is the first thing it does. -/
theorem opensock_dotted_decimal_calls_dnscache :
    isDottedDecimal "127.0.0.1" = true ∧
    (opensock (exampleEnv 0 3 0) "127.0.0.1" 80).map (fun p => p.2.head?)
      = some (some (Call.dnscache "127.0.0.1")) ∧
    (opensock (exampleEnv 0 3 0) "127.0.0.1" 80).map (fun p => dnsCount p.2) = some 1 := by
  decide

/-- C9, amended: for every host string, dotted-decimal or not, and every port
above 0, `opensock` calls `dnscache` exactly once, with the host it was given,
before any other call to a collaborator. -/
theorem opensock_always_calls_dnscache (env : Env) (host : String) (port : Nat)
    (hport : 0 < port) :
    (opensock env host port).map (fun p => p.2.head?) = some (some (Call.dnscache host)) ∧
    (opensock env host port).map (fun p => dnsCount p.2) = some 1 := by
  constructor
  · simp only [opensock, hport, if_true]
    split <;> (try split) <;> (try split) <;> rfl
  · simp only [opensock, hport, if_true]
    split <;> (try split) <;> (try split) <;> rfl

theorem opensock_always_calls_dnscache_witness :
    (opensock (exampleEnv 0 5 0) "192.168.1.10" 3128).map (fun p => p.2.head?)
      = some (some (Call.dnscache "192.168.1.10")) ∧
    (opensock (exampleEnv 0 5 0) "192.168.1.10" 3128).map (fun p => dnsCount p.2) = some 1 :=
  opensock_always_calls_dnscache (exampleEnv 0 5 0) "192.168.1.10" 3128 (by decide)

end Sock
